import Mathlib

/-!
Verification of the loong64 big-integer multiply kernel
(`src/arch/loong64/core/loong64_bigint.c`, `bigint_multiply_raw`) and of the
RSA signature self-test vectors (`src/tests/rsa_test.c`).

A big integer is a list of 64-bit words, least-significant word first.
The kernel's inline assembly is embedded as pure functions on word lists:

* `addWord` models an `add.d` / `sltu` pair: a wrapping 64-bit addition
  together with the carry flag obtained by comparing the wrapped sum
  against the second addend.
* `addPair` models the two-word addition of a 128-bit partial product
  (`mul.d` low half and `mulh.du` high half) into the result at positions
  `i+j` and `i+j+1`, combining the carry flags with a bitwise or exactly as
  the assembly does.
* `carryLoop` models the unchecked carry-propagation loop.  It recurses on
  the remaining suffix of the result buffer; the assembly has no upper
  bound check, so a carry still pending when the suffix is exhausted would
  be a write past the end of the result buffer, modelled as `none`.
* `mulLoop2` / `mulLoop1` are the `j` and `i` loops, and
  `bigint_multiply_into` models the full call: `memset` the caller's
  result buffer to zero and run the loops.
-/

/-- The word base: words are 64-bit, so arithmetic is modulo `2 ^ 64`. -/
def B : Nat := 2 ^ 64

/-- Every entry of the list is a valid 64-bit word. -/
def wordsLt (l : List Nat) : Prop := ∀ w ∈ l, w < B

instance wordsLt.decidable (l : List Nat) : Decidable (wordsLt l) := by
  unfold wordsLt
  infer_instance

/-- Value of a word list, least-significant word first:
`value [w0, w1, ...] = w0 + B * (w1 + B * ...)`. -/
def bigintValue : List Nat → Nat
  | [] => 0
  | w :: ws => w + B * bigintValue ws

/-- `add.d s, x, y` followed by `sltu flag, s, y`: the wrapped 64-bit sum
and the carry flag detected by comparing the sum against the addend `y`. -/
def addWord (x y : Nat) : Nat × Nat :=
  ((x + y) % B, if (x + y) % B < y then 1 else 0)

/-- The two-word addition of a 128-bit partial product `(lo, hi)` into the
result words `(t0, t1)`, as performed by the assembly block: add `lo` into
`t0` with carry flag `c0`, add `hi` into `t1` with carry flag `c1`, add
`c0` into that sum with carry flag `c2`, and combine the outgoing carry as
`c2 | c1` (`or $t0, $t0, $t1`).  Returns the two updated words and the
combined carry. -/
def addPair (t0 t1 lo hi : Nat) : Nat × Nat × Nat :=
  let p1 := addWord t0 lo
  let p2 := addWord t1 hi
  let p3 := addWord p2.1 p1.2
  (p1.1, p3.1, p3.2 ||| p2.2)

/-- The carry-propagation loop (`1:` ... `bnez $t0, 1b`): while the carry
is non-zero, load the next result word, add the carry, recompute the carry
flag, store, and advance.  The loop has no upper bound check; if the
result suffix is exhausted while a carry is still pending, the store would
land past the end of the result buffer, which is modelled as `none`. -/
def carryLoop : Nat → List Nat → Option (List Nat)
  | c, [] => if c = 0 then some [] else none
  | c, v :: rest =>
    if c = 0 then some (v :: rest)
    else
      Option.map (fun t => (addWord v c).1 :: t) (carryLoop (addWord v c).2 rest)

/-- One inner-loop iteration acting on the result suffix that starts at
word `i+j`: compute the 128-bit product `x * y` (`mul.d` / `mulh.du`),
add its two halves into the first two suffix words, and propagate the
combined carry into the remainder.  The initial two-word access requires
at least two words of suffix; a shorter suffix would be an out-of-range
access, modelled as `none`. -/
def mulAddStep (x y : Nat) : List Nat → Option (List Nat)
  | t0 :: t1 :: rest =>
    Option.map
      (fun t => (addPair t0 t1 (x * y % B) (x * y / B % B)).1 ::
        (addPair t0 t1 (x * y % B) (x * y / B % B)).2.1 :: t)
      (carryLoop (addPair t0 t1 (x * y % B) (x * y / B % B)).2.2 rest)
  | _ => none

/-- One inner-loop iteration on the whole result buffer: the words below
`result->element[i+j]` are untouched. -/
def mulAddAt (x y k : Nat) (r : List Nat) : Option (List Nat) :=
  Option.map (fun s => r.take k ++ s) (mulAddStep x y (r.drop k))

/-- The inner (`j`) loop: walk the multiplier words, accumulating each
partial product at successive result positions starting at `k = i`. -/
def mulLoop2 (x : Nat) : List Nat → Nat → List Nat → Option (List Nat)
  | [], _, r => some r
  | bj :: brest, k, r => Option.bind (mulAddAt x bj k r) (mulLoop2 x brest (k + 1))

/-- The outer (`i`) loop: walk the multiplicand words. -/
def mulLoop1 : List Nat → List Nat → Nat → List Nat → Option (List Nat)
  | [], _, _, r => some r
  | ai :: arest, b, i, r =>
    Option.bind (mulLoop2 ai b i r) (fun r2 => mulLoop1 arest b (i + 1) r2)

/-- The full call on a caller-supplied result buffer `r0` of
`multiplicand_size + multiplier_size` words with arbitrary prior contents:
`memset ( result, 0, sizeof ( *result ) )` zeroes every word of the
buffer, then the two nested loops accumulate the partial products. -/
def bigint_multiply_into (a b r0 : List Nat) : Option (List Nat) :=
  mulLoop1 a b 0 (List.map (fun _ => 0) r0)

/-- `bigint_multiply_raw` viewed as a function of the operand word lists:
the contents of the result buffer on entry are irrelevant (they are
zeroed), so the canonical call uses an all-zero buffer of the correct
size. -/
def bigint_multiply_raw (a b : List Nat) : Option (List Nat) :=
  bigint_multiply_into a b (List.replicate (a.length + b.length) 0)

/-- Little-endian base-`B` representation of `v` in exactly `n` words. -/
def natToWords : Nat → Nat → List Nat
  | 0, _ => []
  | n + 1, v => v % B :: natToWords n (v / B)

/-- Modelled from the spec: one row of the portable reference schoolbook
multiplication (spec 4.1/4.4; the portable C kernel itself is not in the
excerpt): the partial products of one multiplicand word `x` against every
multiplier word `bj`, each taken at its full weight `B ^ (i + j)`. -/
def sumRow (x : Nat) : List Nat → Nat → Nat
  | [], _ => 0
  | bj :: brest, k => x * bj * B ^ k + sumRow x brest (k + 1)

/-- Modelled from the spec: the accumulated value of all schoolbook
partial products `word[i] * word[j] * B ^ (i + j)`. -/
def schoolbookSum : List Nat → List Nat → Nat → Nat
  | [], _, _ => 0
  | ai :: arest, b, i => sumRow ai b i + schoolbookSum arest b (i + 1)

/-- Modelled from the spec: the portable reference schoolbook multiply
(spec 4.1): accumulate every partial product at its weight and represent
the total in exactly `L1 + L2` words. -/
def bigint_multiply_portable (a b : List Nat) : List Nat :=
  natToWords (a.length + b.length) (schoolbookSum a b 0)

/-- Read `n` consecutive words from a word-addressed memory. -/
def readWords (mem : Nat → Nat) (base : Nat) : Nat → List Nat
  | 0 => []
  | n + 1 => mem base :: readWords mem (base + 1) n

/-- Write a word list to consecutive addresses of a word-addressed
memory. -/
def writeWords : (Nat → Nat) → Nat → List Nat → (Nat → Nat)
  | mem, _, [] => mem
  | mem, base, w :: ws => writeWords (Function.update mem base w) (base + 1) ws

/-- The call `bigint_multiply_raw ( a0, la, b0, lb, r0 )` on a flat
word-addressed memory: the operand words are read from the multiplicand
and multiplier regions, the result region (with its prior contents) is
zeroed and filled by the kernel, and the updated result words are written
back.  The regions are assumed non-aliased, as the spec requires of the
caller. -/
def bigint_multiply_mem (pa la pb lb pr : Nat) (mem : Nat → Nat) :
    Option (Nat → Nat) :=
  Option.map (fun r => writeWords mem pr r)
    (bigint_multiply_into (readWords mem pa la) (readWords mem pb lb)
      (readWords mem pr (la + lb)))

/-- The word at one address of an optional final memory. -/
def memAt (addr : Nat) (om : Option (Nat → Nat)) : Option Nat :=
  Option.map (fun m => m addr) om

/-- The contents of one region of an optional final memory. -/
def regionAt (base len : Nat) (om : Option (Nat → Nat)) : Option (List Nat) :=
  Option.map (fun m => readWords m base len) om

/-- A concrete memory holding zero everywhere. -/
def memZero : Nat → Nat := fun _ => 0

/-- A concrete memory that differs from `memZero` only at the two operand
addresses `0` and `1` of the layout `pa = 0, la = 1, pb = 1, lb = 1,
pr = 2`. -/
def memOperandsOne : Nat → Nat := fun addr => if addr < 2 then 1 else 0

/-- A concrete memory with small distinct words, for instantiating the
frame theorem. -/
def memExample : Nat → Nat := fun addr => addr + 1

/-- Modelled from the spec: the 64 MD5 sine-derived round constants (RFC 1321); the digest algorithms are external collaborators whose source is not in the excerpt. -/
def md5K : List Nat :=
  [3614090360, 3905402710, 606105819, 3250441966, 4118548399, 1200080426,
   2821735955, 4249261313, 1770035416, 2336552879, 4294925233, 2304563134,
   1804603682, 4254626195, 2792965006, 1236535329, 4129170786, 3225465664,
   643717713, 3921069994, 3593408605, 38016083, 3634488961, 3889429448,
   568446438, 3275163606, 4107603335, 1163531501, 2850285829, 4243563512,
   1735328473, 2368359562, 4294588738, 2272392833, 1839030562, 4259657740,
   2763975236, 1272893353, 4139469664, 3200236656, 681279174, 3936430074,
   3572445317, 76029189, 3654602809, 3873151461, 530742520, 3299628645,
   4096336452, 1126891415, 2878612391, 4237533241, 1700485571, 2399980690,
   4293915773, 2240044497, 1873313359, 4264355552, 2734768916, 1309151649,
   4149444226, 3174756917, 718787259, 3951481745]

/-- Modelled from the spec: the MD5 per-round left-rotation amounts (RFC 1321). -/
def md5S : List Nat :=
  [7, 12, 17, 22, 7, 12, 17, 22, 7, 12, 17, 22, 7, 12, 17, 22, 5, 9, 14,
   20, 5, 9, 14, 20, 5, 9, 14, 20, 5, 9, 14, 20, 4, 11, 16, 23, 4, 11, 16,
   23, 4, 11, 16, 23, 4, 11, 16, 23, 6, 10, 15, 21, 6, 10, 15, 21, 6, 10,
   15, 21, 6, 10, 15, 21]

/-- Modelled from the spec: the 64 SHA-256 round constants (FIPS 180-4). -/
def sha256K : List Nat :=
  [1116352408, 1899447441, 3049323471, 3921009573, 961987163, 1508970993,
   2453635748, 2870763221, 3624381080, 310598401, 607225278, 1426881987,
   1925078388, 2162078206, 2614888103, 3248222580, 3835390401, 4022224774,
   264347078, 604807628, 770255983, 1249150122, 1555081692, 1996064986,
   2554220882, 2821834349, 2952996808, 3210313671, 3336571891, 3584528711,
   113926993, 338241895, 666307205, 773529912, 1294757372, 1396182291,
   1695183700, 1986661051, 2177026350, 2456956037, 2730485921, 2820302411,
   3259730800, 3345764771, 3516065817, 3600352804, 4094571909, 275423344,
   430227734, 506948616, 659060556, 883997877, 958139571, 1322822218,
   1537002063, 1747873779, 1955562222, 2024104815, 2227730452, 2361852424,
   2428436474, 2756734187, 3204031479, 3329325298]

/-- Byte sequence `md5_test_private` from `src/tests/rsa_test.c`. -/
def md5_test_private : List Nat :=
  [48, 130, 1, 59, 2, 1, 0, 2, 65, 0, 249, 63, 120, 68, 226, 14, 37, 241,
   14, 148, 205, 202, 111, 158, 234, 109, 223, 205, 160, 124, 226, 33, 235,
   222, 166, 1, 75, 176, 118, 75, 216, 139, 25, 131, 180, 190, 69, 222, 61,
   70, 97, 15, 17, 226, 44, 245, 176, 99, 160, 132, 192, 175, 78, 190, 106,
   211, 132, 63, 236, 66, 23, 233, 37, 225, 2, 3, 1, 0, 1, 2, 64, 98, 125,
   147, 31, 221, 23, 236, 36, 66, 55, 200, 206, 10, 167, 136, 73, 92, 155,
   155, 164, 93, 147, 59, 234, 98, 60, 182, 213, 7, 25, 215, 121, 240, 59,
   171, 163, 165, 67, 53, 141, 88, 64, 160, 149, 197, 99, 40, 40, 218, 19,
   40, 223, 201, 5, 220, 105, 70, 255, 42, 251, 228, 209, 35, 165, 2, 33,
   0, 252, 239, 59, 157, 157, 105, 243, 102, 10, 43, 82, 214, 97, 20, 144,
   110, 125, 60, 8, 75, 152, 68, 0, 242, 164, 22, 45, 209, 249, 160, 30,
   55, 2, 33, 0, 252, 68, 204, 124, 192, 38, 154, 10, 110, 218, 23, 5, 125,
   102, 141, 41, 26, 68, 191, 51, 118, 174, 141, 232, 181, 237, 184, 111,
   220, 254, 16, 167, 2, 32, 118, 72, 138, 96, 147, 20, 209, 54, 142, 218,
   227, 202, 77, 108, 8, 127, 35, 33, 199, 223, 82, 61, 187, 19, 189, 152,
   129, 165, 8, 79, 208, 209, 2, 33, 0, 217, 163, 17, 55, 223, 30, 110,
   110, 233, 203, 197, 104, 187, 19, 42, 93, 119, 136, 47, 220, 90, 91,
   165, 154, 74, 186, 88, 16, 73, 251, 246, 169, 2, 33, 0, 137, 232, 71,
   91, 32, 4, 59, 15, 185, 224, 29, 171, 207, 232, 114, 253, 125, 23, 133,
   200, 216, 189, 26, 146, 224, 188, 122, 199, 49, 190, 239, 244]

/-- Byte sequence `md5_test_public` from `src/tests/rsa_test.c`. -/
def md5_test_public : List Nat :=
  [48, 92, 48, 13, 6, 9, 42, 134, 72, 134, 247, 13, 1, 1, 1, 5, 0, 3, 75,
   0, 48, 72, 2, 65, 0, 249, 63, 120, 68, 226, 14, 37, 241, 14, 148, 205,
   202, 111, 158, 234, 109, 223, 205, 160, 124, 226, 33, 235, 222, 166, 1,
   75, 176, 118, 75, 216, 139, 25, 131, 180, 190, 69, 222, 61, 70, 97, 15,
   17, 226, 44, 245, 176, 99, 160, 132, 192, 175, 78, 190, 106, 211, 132,
   63, 236, 66, 23, 233, 37, 225, 2, 3, 1, 0, 1]

/-- Byte sequence `md5_test_plaintext` from `src/tests/rsa_test.c`. -/
def md5_test_plaintext : List Nat :=
  [157, 91, 70, 66, 39, 192, 241, 75, 229, 158, 211, 16, 161, 235, 22, 195,
   198, 143, 26, 24, 134, 195, 146, 21, 45, 101, 160, 64, 225, 62, 41, 121,
   124, 212, 8, 239, 83, 235, 8, 7, 57, 33, 179, 64, 255, 75, 199, 118,
   185, 18, 50, 65, 204, 90, 134, 92, 46, 11, 5, 216, 86, 212, 223, 111,
   44, 240, 191, 75, 111, 104, 222, 57, 74, 62, 174, 68, 185, 198, 36, 179,
   131, 46, 159, 245, 109, 97, 195, 142, 232, 143, 166, 135, 88, 63, 54,
   19, 244, 126, 240, 32, 71, 135, 63, 33, 110, 81, 60, 241, 239, 202, 159,
   119, 156, 145, 79, 212, 86, 192, 57, 17, 171, 21, 44, 94, 173, 64, 9,
   230, 222, 229, 119, 96, 25, 212, 13, 119, 118, 36, 139, 230, 221, 165,
   141, 74, 85, 58, 223, 248, 41, 251, 71, 138, 254, 152, 52, 246, 48, 127,
   9, 3, 38, 5, 213, 70, 24, 150, 202, 150, 91, 102, 242, 141, 252, 252,
   55, 247, 199, 109, 108, 216, 36, 12, 106, 236, 130, 92, 114, 241, 252,
   5, 237, 142, 232, 217, 139, 139, 103, 2, 149]

/-- Byte sequence `md5_test_signature` from `src/tests/rsa_test.c`. -/
def md5_test_signature : List Nat :=
  [219, 86, 61, 234, 174, 129, 75, 59, 46, 142, 184, 238, 19, 97, 198, 231,
   215, 80, 205, 13, 52, 58, 254, 154, 141, 248, 251, 214, 126, 189, 221,
   179, 249, 251, 224, 248, 231, 113, 3, 230, 85, 213, 244, 2, 60, 181,
   188, 149, 43, 102, 86, 236, 47, 142, 167, 174, 217, 128, 179, 170, 172,
   69, 0, 168]

/-- Byte sequence `sha1_test_private` from `src/tests/rsa_test.c`. -/
def sha1_test_private : List Nat :=
  [48, 130, 1, 59, 2, 1, 0, 2, 65, 0, 224, 58, 141, 53, 225, 146, 47, 234,
   13, 130, 96, 46, 182, 11, 2, 211, 244, 57, 251, 6, 67, 142, 161, 124,
   197, 174, 13, 199, 238, 131, 179, 99, 32, 146, 52, 226, 148, 61, 221,
   187, 108, 100, 105, 104, 37, 36, 129, 75, 77, 72, 90, 210, 41, 20, 235,
   56, 221, 62, 181, 87, 69, 155, 237, 51, 2, 3, 1, 0, 1, 2, 64, 61, 169,
   28, 71, 226, 221, 246, 123, 32, 119, 231, 199, 48, 156, 90, 140, 186,
   174, 111, 15, 75, 232, 159, 19, 214, 176, 132, 109, 164, 115, 103, 18,
   169, 124, 117, 175, 98, 146, 123, 128, 175, 57, 125, 1, 179, 67, 200,
   13, 23, 127, 130, 89, 70, 184, 229, 78, 186, 94, 113, 92, 186, 98, 6,
   145, 2, 33, 0, 247, 170, 182, 156, 200, 173, 104, 168, 215, 37, 177,
   181, 145, 212, 199, 214, 105, 81, 93, 4, 237, 216, 198, 234, 105, 210,
   36, 190, 94, 124, 137, 165, 2, 33, 0, 231, 197, 244, 1, 53, 224, 22,
   181, 19, 134, 20, 90, 106, 141, 3, 144, 174, 125, 58, 193, 254, 140,
   160, 74, 180, 148, 80, 88, 164, 198, 115, 247, 2, 33, 0, 226, 218, 22,
   108, 99, 144, 26, 198, 84, 83, 45, 132, 143, 112, 36, 31, 107, 214, 95,
   234, 140, 229, 187, 197, 169, 106, 23, 199, 219, 138, 29, 21, 2, 33, 0,
   228, 42, 126, 228, 118, 42, 45, 144, 131, 48, 218, 118, 140, 48, 88, 19,
   37, 131, 136, 197, 147, 150, 210, 241, 216, 69, 173, 183, 38, 55, 107,
   207, 2, 32, 115, 88, 31, 10, 205, 12, 131, 39, 204, 21, 162, 30, 7, 50,
   27, 163, 198, 166, 184, 131, 151, 72, 69, 80, 108, 55, 69, 165, 84, 42,
   89, 60]

/-- Byte sequence `sha1_test_public` from `src/tests/rsa_test.c`. -/
def sha1_test_public : List Nat :=
  [48, 92, 48, 13, 6, 9, 42, 134, 72, 134, 247, 13, 1, 1, 1, 5, 0, 3, 75,
   0, 48, 72, 2, 65, 0, 224, 58, 141, 53, 225, 146, 47, 234, 13, 130, 96,
   46, 182, 11, 2, 211, 244, 57, 251, 6, 67, 142, 161, 124, 197, 174, 13,
   199, 238, 131, 179, 99, 32, 146, 52, 226, 148, 61, 221, 187, 108, 100,
   105, 104, 37, 36, 129, 75, 77, 72, 90, 210, 41, 20, 235, 56, 221, 62,
   181, 87, 69, 155, 237, 51, 2, 3, 1, 0, 1]

/-- Byte sequence `sha1_test_plaintext` from `src/tests/rsa_test.c`. -/
def sha1_test_plaintext : List Nat :=
  [247, 66, 1, 87, 107, 112, 204, 74, 220, 237, 18, 131, 63, 239, 39, 193,
   60, 133, 221, 94, 10, 52, 152, 249, 33, 211, 36, 42, 90, 178, 223, 96,
   33, 40, 124, 91, 122, 190, 203, 234, 188, 214, 14, 174, 148, 100, 33,
   218, 40, 102, 47, 113, 72, 229, 234, 89, 56, 40, 62, 237, 59, 149, 79,
   61, 114, 42, 0, 243, 149, 77, 240, 2, 113, 99, 90, 188, 132, 209, 129,
   63, 22, 205, 40, 61, 71, 162, 238, 161, 47, 132, 138, 34, 2, 136, 215,
   131, 6, 74, 159, 234, 15, 21, 72, 67, 88, 109, 57, 120, 90, 67, 63, 237,
   111, 104, 222, 156, 254, 211, 103, 116, 8, 70, 125, 32, 34, 96, 140, 55,
   53, 70, 86, 25, 60, 250, 165, 64, 172, 68, 144, 138, 165, 128, 178, 50,
   188, 180, 63, 62, 94, 212, 81, 169, 46, 217, 127, 94, 50, 177, 36, 53,
   136, 113, 58, 1, 134, 92, 162, 226, 45, 2, 48, 145, 28, 170, 108, 36,
   66, 27, 26, 186, 48, 64, 73, 131, 217, 215, 102, 126, 92, 26, 75, 127,
   166, 142, 138, 214, 12, 101, 117]

/-- Byte sequence `sha1_test_signature` from `src/tests/rsa_test.c`. -/
def sha1_test_signature : List Nat :=
  [165, 90, 138, 103, 129, 118, 126, 173, 153, 34, 241, 71, 100, 210, 251,
   129, 69, 235, 133, 86, 248, 125, 184, 236, 65, 23, 132, 247, 43, 187,
   43, 143, 182, 184, 143, 198, 171, 57, 188, 163, 114, 179, 99, 69, 90,
   224, 172, 248, 28, 131, 72, 132, 137, 138, 107, 223, 147, 160, 195, 11,
   14, 61, 128, 128]

/-- Byte sequence `sha256_test_private` from `src/tests/rsa_test.c`. -/
def sha256_test_private : List Nat :=
  [48, 130, 1, 58, 2, 1, 0, 2, 65, 0, 165, 233, 219, 169, 26, 110, 214, 76,
   37, 80, 254, 97, 119, 8, 122, 128, 54, 203, 136, 73, 92, 232, 170, 21,
   248, 179, 214, 120, 81, 70, 134, 58, 95, 213, 159, 171, 254, 116, 140,
   83, 13, 181, 60, 125, 44, 53, 136, 63, 222, 162, 206, 70, 148, 48, 169,
   118, 238, 37, 197, 93, 166, 166, 58, 165, 2, 3, 1, 0, 1, 2, 64, 20, 75,
   188, 76, 62, 104, 138, 156, 124, 0, 33, 110, 40, 210, 135, 177, 193,
   130, 58, 100, 199, 17, 203, 36, 174, 236, 200, 242, 164, 246, 156, 154,
   187, 5, 148, 128, 155, 193, 33, 131, 54, 35, 186, 4, 32, 35, 6, 72, 167,
   164, 230, 49, 142, 161, 115, 229, 107, 131, 76, 58, 184, 216, 34, 97, 2,
   33, 0, 212, 223, 203, 33, 74, 154, 53, 82, 2, 153, 204, 64, 131, 101,
   48, 31, 157, 19, 214, 209, 121, 16, 206, 91, 235, 37, 162, 57, 78, 223,
   28, 41, 2, 33, 0, 199, 134, 143, 217, 136, 233, 152, 75, 92, 80, 6, 148,
   5, 89, 49, 37, 167, 168, 230, 149, 43, 227, 116, 147, 81, 168, 142, 61,
   226, 224, 250, 29, 2, 32, 110, 227, 129, 49, 255, 101, 163, 30, 236, 97,
   231, 103, 55, 203, 15, 45, 120, 170, 171, 253, 132, 94, 63, 208, 220, 6,
   71, 162, 40, 182, 202, 57, 2, 32, 19, 125, 159, 155, 190, 118, 35, 60,
   105, 94, 31, 230, 97, 199, 94, 183, 176, 243, 28, 227, 65, 144, 76, 152,
   255, 135, 25, 174, 13, 245, 176, 57, 2, 33, 0, 183, 235, 205, 1, 46, 35,
   66, 79, 12, 111, 222, 200, 79, 167, 105, 9, 18, 52, 182, 149, 77, 184,
   127, 22, 208, 72, 23, 74, 158, 110, 94, 226]

/-- Byte sequence `sha256_test_public` from `src/tests/rsa_test.c`. -/
def sha256_test_public : List Nat :=
  [48, 92, 48, 13, 6, 9, 42, 134, 72, 134, 247, 13, 1, 1, 1, 5, 0, 3, 75,
   0, 48, 72, 2, 65, 0, 165, 233, 219, 169, 26, 110, 214, 76, 37, 80, 254,
   97, 119, 8, 122, 128, 54, 203, 136, 73, 92, 232, 170, 21, 248, 179, 214,
   120, 81, 70, 134, 58, 95, 213, 159, 171, 254, 116, 140, 83, 13, 181, 60,
   125, 44, 53, 136, 63, 222, 162, 206, 70, 148, 48, 169, 118, 238, 37,
   197, 93, 166, 166, 58, 165, 2, 3, 1, 0, 1]

/-- Byte sequence `sha256_test_plaintext` from `src/tests/rsa_test.c`. -/
def sha256_test_plaintext : List Nat :=
  [96, 231, 186, 157, 90, 227, 45, 250, 95, 71, 219, 147, 36, 44, 196, 226,
   97, 243, 137, 77, 103, 173, 200, 174, 248, 226, 251, 82, 15, 141, 24,
   126, 48, 216, 141, 148, 7, 146, 112, 145, 175, 59, 146, 166, 15, 122,
   155, 70, 133, 140, 42, 90, 120, 93, 30, 19, 191, 230, 18, 189, 177, 187,
   146, 109, 17, 237, 225, 228, 110, 136, 77, 11, 81, 214, 253, 106, 178,
   155, 211, 253, 86, 236, 217, 214, 184, 197, 253, 12, 247, 85, 95, 197,
   111, 188, 187, 120, 47, 80, 8, 101, 15, 18, 202, 90, 234, 82, 208, 148,
   118, 23, 228, 186, 151, 186, 17, 191, 5, 126, 161, 253, 125, 181, 241,
   58, 126, 111, 161, 170, 151, 102, 93, 114, 118, 69, 64, 181, 34, 113,
   67, 232, 119, 118, 200, 27, 210, 209, 51, 5, 100, 169, 194, 168, 64, 64,
   33, 221, 207, 7, 126, 242, 75, 128, 61, 15, 103, 246, 189, 194, 199,
   227, 145, 113, 214, 45, 161, 174, 129, 12, 237, 84, 72, 121, 138, 120,
   5, 116, 77, 79, 240, 224, 60, 65, 92, 4, 11, 104, 87, 197, 214]

/-- Byte sequence `sha256_test_signature` from `src/tests/rsa_test.c`. -/
def sha256_test_signature : List Nat :=
  [2, 46, 197, 42, 43, 127, 180, 128, 202, 157, 150, 91, 175, 31, 114, 91,
   110, 241, 105, 127, 77, 65, 213, 159, 0, 220, 71, 244, 104, 143, 218,
   252, 209, 35, 150, 17, 29, 192, 27, 29, 54, 102, 42, 249, 33, 81, 203,
   185, 125, 36, 125, 56, 55, 196, 234, 221, 58, 111, 168, 101, 96, 115,
   119, 60]


/-- Modelled from the spec: big-endian byte buffer to integer conversion
(spec 6: a big integer is produced from a big-endian byte buffer). -/
def bytesToNat (l : List Nat) : Nat :=
  l.foldl (fun acc b => acc * 256 + b) 0

/-- Modelled from the spec: export an integer to a big-endian byte buffer
of a caller-specified length (spec 6). -/
def natToBytesBE : Nat → Nat → List Nat
  | 0, _ => []
  | k + 1, v => natToBytesBE k (v / 256) ++ [v % 256]

/-- Little-endian byte serialization of `v` in `k` bytes (used by the MD5
length field and output words). -/
def natToBytesLE : Nat → Nat → List Nat
  | 0, _ => []
  | k + 1, v => v % 256 :: natToBytesLE k (v / 256)

/-- Strip leading zero bytes of a big-endian integer. -/
def stripZeros : List Nat → List Nat
  | [] => []
  | b :: rest => if b = 0 then stripZeros rest else b :: rest

/-- Modelled from the spec: ASN.1 DER length field (short form, or long
form with one or two length bytes); the ASN.1 parsing collaborator's
source is not in the excerpt. -/
def asn1Len : List Nat → Option (Nat × List Nat)
  | [] => none
  | b :: rest =>
    if b < 128 then some (b, rest)
    else if b = 129 then
      match rest with
      | l1 :: r => some (l1, r)
      | [] => none
    else if b = 130 then
      match rest with
      | l1 :: l2 :: r => some (l1 * 256 + l2, r)
      | _ => none
    else none

/-- Modelled from the spec: one ASN.1 DER element: tag byte, length,
contents, and the remaining bytes. -/
def asn1Next (l : List Nat) : Option (Nat × List Nat × List Nat) :=
  match l with
  | [] => none
  | t :: rest =>
    match asn1Len rest with
    | none => none
    | some (len, r) =>
      if len ≤ r.length then some (t, r.take len, r.drop len) else none

/-- Modelled from the spec: the RSA layer parses the modulus and private
exponent from the traditional (PKCS#1 `RSAPrivateKey`) key format:
`SEQUENCE { version, n, e, d, ... }`.  Returns the modulus contents bytes
and the private exponent. -/
def rsaParsePrivate (l : List Nat) : Option (List Nat × Nat) :=
  match asn1Next l with
  | some (48, inner, _) =>
    match asn1Next inner with
    | some (2, _, rest1) =>
      match asn1Next rest1 with
      | some (2, nBytes, rest2) =>
        match asn1Next rest2 with
        | some (2, _, rest3) =>
          match asn1Next rest3 with
          | some (2, dBytes, _) => some (nBytes, bytesToNat dBytes)
          | _ => none
        | _ => none
      | _ => none
    | _ => none
  | _ => none

/-- Modelled from the spec: the RSA layer parses the modulus and public
exponent from a `SubjectPublicKeyInfo`:
`SEQUENCE { AlgorithmIdentifier, BIT STRING { SEQUENCE { n, e } } }`. -/
def rsaParsePublic (l : List Nat) : Option (List Nat × Nat) :=
  match asn1Next l with
  | some (48, inner, _) =>
    match asn1Next inner with
    | some (48, _, rest1) =>
      match asn1Next rest1 with
      | some (3, bits, _) =>
        match bits with
        | 0 :: payload =>
          match asn1Next payload with
          | some (48, inner2, _) =>
            match asn1Next inner2 with
            | some (2, nBytes, rest2) =>
              match asn1Next rest2 with
              | some (2, eBytes, _) => some (nBytes, bytesToNat eBytes)
              | _ => none
            | _ => none
          | _ => none
        | _ => none
      | _ => none
    | _ => none
  | _ => none

/-- Fuel-bounded square-and-multiply helper for modular exponentiation. -/
def powModAux : Nat → Nat → Nat → Nat → Nat → Nat
  | 0, _, _, _, acc => acc
  | fuel + 1, base, e, n, acc =>
    if e = 0 then acc
    else powModAux fuel (base * base % n) (e / 2) n
      (if e % 2 = 1 then acc * base % n else acc)

/-- Modelled from the spec: modular exponentiation
`base ^ exponent mod modulus`, RSA's core primitive (spec 4.2); 600
squarings cover any exponent below `2 ^ 600`, far above the 512-bit test
keys. -/
def powMod (b e n : Nat) : Nat := powModAux 600 (b % n) e n (1 % n)

/-- Words are 32-bit inside the digest algorithms. -/
def M32 : Nat := 2 ^ 32

/-- Addition modulo `2 ^ 32`. -/
def add32 (x y : Nat) : Nat := (x + y) % M32

/-- Left rotation of a 32-bit word. -/
def rotl32 (x s : Nat) : Nat := ((x <<< s) ||| (x >>> (32 - s))) % M32

/-- Right rotation of a 32-bit word. -/
def rotr32 (x s : Nat) : Nat := rotl32 x (32 - s)

/-- Bitwise complement of a 32-bit word. -/
def not32 (x : Nat) : Nat := Nat.xor x (M32 - 1)

/-- Split a byte list into 64-byte blocks (fuel-bounded). -/
def splitBlocks : Nat → List Nat → List (List Nat)
  | 0, _ => []
  | _, [] => []
  | fuel + 1, l => l.take 64 :: splitBlocks fuel (l.drop 64)

/-- Groups of four bytes to little-endian 32-bit words. -/
def leWords32 : List Nat → List Nat
  | b0 :: b1 :: b2 :: b3 :: rest =>
    (b0 + 256 * (b1 + 256 * (b2 + 256 * b3))) :: leWords32 rest
  | _ => []

/-- Groups of four bytes to big-endian 32-bit words. -/
def beWords32 : List Nat → List Nat
  | b0 :: b1 :: b2 :: b3 :: rest =>
    (b3 + 256 * (b2 + 256 * (b1 + 256 * b0))) :: beWords32 rest
  | _ => []

/-- Merkle-Damgard padding: `0x80`, zeros to 56 mod 64, then the 8-byte
bit length, little-endian for MD5. -/
def padLE (msg : List Nat) : List Nat :=
  msg ++ [128] ++ List.replicate ((55 - msg.length % 64 + 64) % 64) 0
    ++ natToBytesLE 8 (8 * msg.length)

/-- Merkle-Damgard padding with a big-endian length field, for SHA-1 and
SHA-256. -/
def padBE (msg : List Nat) : List Nat :=
  msg ++ [128] ++ List.replicate ((55 - msg.length % 64 + 64) % 64) 0
    ++ natToBytesBE 8 (8 * msg.length)

/-- Modelled from the spec: the MD5 round function (RFC 1321). -/
def md5F (i b c d : Nat) : Nat :=
  if i < 16 then Nat.lor (Nat.land b c) (Nat.land (not32 b) d)
  else if i < 32 then Nat.lor (Nat.land d b) (Nat.land (not32 d) c)
  else if i < 48 then Nat.xor (Nat.xor b c) d
  else Nat.xor c (Nat.lor b (not32 d))

/-- Modelled from the spec: the MD5 message-word index per round. -/
def md5G (i : Nat) : Nat :=
  if i < 16 then i
  else if i < 32 then (5 * i + 1) % 16
  else if i < 48 then (3 * i + 5) % 16
  else (7 * i) % 16

/-- One MD5 round on the state `(a, b, c, d)`. -/
def md5Round (w : List Nat) (i a b c d : Nat) : Nat × Nat × Nat × Nat :=
  (d, add32 b (rotl32 (add32 (add32 (add32 (md5F i b c d) a) (md5K.getD i 0))
    (w.getD (md5G i) 0)) (md5S.getD i 0)), b, c)

/-- The 64 MD5 rounds (fuel-bounded). -/
def md5Loop : Nat → Nat → List Nat → Nat × Nat × Nat × Nat → Nat × Nat × Nat × Nat
  | 0, _, _, st => st
  | fuel + 1, i, w, (a, b, c, d) => md5Loop fuel (i + 1) w (md5Round w i a b c d)

/-- One MD5 block: run the rounds and add into the chaining state. -/
def md5Block (h : Nat × Nat × Nat × Nat) (block : List Nat) :
    Nat × Nat × Nat × Nat :=
  match md5Loop 64 0 (leWords32 block) h with
  | (a, b, c, d) => (add32 h.1 a, add32 h.2.1 b, add32 h.2.2.1 c, add32 h.2.2.2 d)

/-- Modelled from the spec: the MD5 message digest (RFC 1321), named by
the spec as an external collaborator; its source is not in the excerpt. -/
def md5 (msg : List Nat) : List Nat :=
  match (splitBlocks (padLE msg).length (padLE msg)).foldl md5Block
      (1732584193, 4023233417, 2562383102, 271733878) with
  | (a, b, c, d) => natToBytesLE 4 a ++ natToBytesLE 4 b ++ natToBytesLE 4 c
      ++ natToBytesLE 4 d

/-- Modelled from the spec: the SHA-1 round function (FIPS 180-4). -/
def sha1F (i b c d : Nat) : Nat :=
  if i < 20 then Nat.lor (Nat.land b c) (Nat.land (not32 b) d)
  else if i < 40 then Nat.xor (Nat.xor b c) d
  else if i < 60 then Nat.lor (Nat.lor (Nat.land b c) (Nat.land b d)) (Nat.land c d)
  else Nat.xor (Nat.xor b c) d

/-- Modelled from the spec: the SHA-1 round constants (FIPS 180-4). -/
def sha1K (i : Nat) : Nat :=
  if i < 20 then 1518500249
  else if i < 40 then 1859775393
  else if i < 60 then 2400959708
  else 3395469782

/-- Expand the 16 block words to the 80-word SHA-1 schedule
(fuel-bounded). -/
def sha1Expand : Nat → List Nat → List Nat
  | 0, w => w
  | fuel + 1, w =>
    if 80 ≤ w.length then w
    else sha1Expand fuel (w ++ [rotl32
      (Nat.xor (Nat.xor (w.getD (w.length - 3) 0) (w.getD (w.length - 8) 0))
        (Nat.xor (w.getD (w.length - 14) 0) (w.getD (w.length - 16) 0))) 1])

/-- The 80 SHA-1 rounds (fuel-bounded). -/
def sha1Loop : Nat → Nat → List Nat → Nat × Nat × Nat × Nat × Nat →
    Nat × Nat × Nat × Nat × Nat
  | 0, _, _, st => st
  | fuel + 1, i, w, (a, b, c, d, e) =>
    sha1Loop fuel (i + 1) w
      (add32 (add32 (add32 (add32 (rotl32 a 5) (sha1F i b c d)) e) (sha1K i))
        (w.getD i 0), a, rotl32 b 30, c, d)

/-- One SHA-1 block: expand the schedule, run the rounds, add into the
chaining state. -/
def sha1Block (h : Nat × Nat × Nat × Nat × Nat) (block : List Nat) :
    Nat × Nat × Nat × Nat × Nat :=
  match sha1Loop 80 0 (sha1Expand 64 (beWords32 block)) h with
  | (a, b, c, d, e) => (add32 h.1 a, add32 h.2.1 b, add32 h.2.2.1 c,
      add32 h.2.2.2.1 d, add32 h.2.2.2.2 e)

/-- Modelled from the spec: the SHA-1 message digest (FIPS 180-4), named
by the spec as an external collaborator; its source is not in the
excerpt. -/
def sha1 (msg : List Nat) : List Nat :=
  match (splitBlocks (padBE msg).length (padBE msg)).foldl sha1Block
      (1732584193, 4023233417, 2562383102, 271733878, 3285377520) with
  | (a, b, c, d, e) => natToBytesBE 4 a ++ natToBytesBE 4 b ++ natToBytesBE 4 c
      ++ natToBytesBE 4 d ++ natToBytesBE 4 e

/-- SHA-256 small sigma 0 (FIPS 180-4). -/
def ssig0 (x : Nat) : Nat :=
  Nat.xor (Nat.xor (rotr32 x 7) (rotr32 x 18)) (x >>> 3)

/-- SHA-256 small sigma 1 (FIPS 180-4). -/
def ssig1 (x : Nat) : Nat :=
  Nat.xor (Nat.xor (rotr32 x 17) (rotr32 x 19)) (x >>> 10)

/-- SHA-256 big sigma 0 (FIPS 180-4). -/
def bsig0 (x : Nat) : Nat :=
  Nat.xor (Nat.xor (rotr32 x 2) (rotr32 x 13)) (rotr32 x 22)

/-- SHA-256 big sigma 1 (FIPS 180-4). -/
def bsig1 (x : Nat) : Nat :=
  Nat.xor (Nat.xor (rotr32 x 6) (rotr32 x 11)) (rotr32 x 25)

/-- SHA-256 choice function. -/
def ch32 (e f g : Nat) : Nat :=
  Nat.xor (Nat.land e f) (Nat.land (not32 e) g)

/-- SHA-256 majority function. -/
def maj32 (a b c : Nat) : Nat :=
  Nat.xor (Nat.xor (Nat.land a b) (Nat.land a c)) (Nat.land b c)

/-- Expand the 16 block words to the 64-word SHA-256 schedule
(fuel-bounded). -/
def sha256Expand : Nat → List Nat → List Nat
  | 0, w => w
  | fuel + 1, w =>
    if 64 ≤ w.length then w
    else sha256Expand fuel (w ++ [add32
      (add32 (ssig1 (w.getD (w.length - 2) 0)) (w.getD (w.length - 7) 0))
      (add32 (ssig0 (w.getD (w.length - 15) 0)) (w.getD (w.length - 16) 0))])

/-- The 64 SHA-256 rounds (fuel-bounded) on the state
`(a, b, c, d, e, f, g, h)`. -/
def sha256Loop : Nat → Nat → List Nat →
    Nat × Nat × Nat × Nat × Nat × Nat × Nat × Nat →
    Nat × Nat × Nat × Nat × Nat × Nat × Nat × Nat
  | 0, _, _, st => st
  | fuel + 1, i, w, (a, b, c, d, e, f, g, h) =>
    sha256Loop fuel (i + 1) w
      (add32 (add32 (add32 h (add32 (bsig1 e) (ch32 e f g)))
          (add32 (sha256K.getD i 0) (w.getD i 0))) (add32 (bsig0 a) (maj32 a b c)),
        a, b, c,
        add32 d (add32 (add32 h (add32 (bsig1 e) (ch32 e f g)))
          (add32 (sha256K.getD i 0) (w.getD i 0))),
        e, f, g)

/-- One SHA-256 block. -/
def sha256Block (h : Nat × Nat × Nat × Nat × Nat × Nat × Nat × Nat)
    (block : List Nat) : Nat × Nat × Nat × Nat × Nat × Nat × Nat × Nat :=
  match sha256Loop 64 0 (sha256Expand 48 (beWords32 block)) h with
  | (a, b, c, d, e, f, g, hh) =>
    (add32 h.1 a, add32 h.2.1 b, add32 h.2.2.1 c, add32 h.2.2.2.1 d,
      add32 h.2.2.2.2.1 e, add32 h.2.2.2.2.2.1 f, add32 h.2.2.2.2.2.2.1 g,
      add32 h.2.2.2.2.2.2.2 hh)

/-- Modelled from the spec: the SHA-256 message digest (FIPS 180-4), named
by the spec as an external collaborator; its source is not in the
excerpt. -/
def sha256 (msg : List Nat) : List Nat :=
  match (splitBlocks (padBE msg).length (padBE msg)).foldl sha256Block
      (1779033703, 3144134277, 1013904242, 2773480762, 1359893119, 2600822924,
        528734635, 1541459225) with
  | (a, b, c, d, e, f, g, h) => natToBytesBE 4 a ++ natToBytesBE 4 b
      ++ natToBytesBE 4 c ++ natToBytesBE 4 d ++ natToBytesBE 4 e
      ++ natToBytesBE 4 f ++ natToBytesBE 4 g ++ natToBytesBE 4 h

/-- Modelled from the spec: the fixed `DigestInfo` header that embeds an
MD5 digest per its signature-algorithm identifier (spec 6, PKCS#1). -/
def digestInfoMD5 (d : List Nat) : List Nat :=
  [48, 32, 48, 12, 6, 8, 42, 134, 72, 134, 247, 13, 2, 5, 5, 0, 4, 16] ++ d

/-- Modelled from the spec: the fixed `DigestInfo` header for SHA-1. -/
def digestInfoSHA1 (d : List Nat) : List Nat :=
  [48, 33, 48, 9, 6, 5, 43, 14, 3, 2, 26, 5, 0, 4, 20] ++ d

/-- Modelled from the spec: the fixed `DigestInfo` header for SHA-256. -/
def digestInfoSHA256 (d : List Nat) : List Nat :=
  [48, 49, 48, 13, 6, 9, 96, 134, 72, 1, 101, 3, 4, 2, 1, 5, 0, 4, 32] ++ d

/-- Modelled from the spec: PKCS#1 v1.5 signature encoding:
`00 01 FF..FF 00 DigestInfo`, padded to the modulus length `k`. -/
def emsaPkcs1 (k : Nat) (digestInfo : List Nat) : List Nat :=
  [0, 1] ++ List.replicate (k - 3 - digestInfo.length) 255 ++ [0] ++ digestInfo

/-- Modelled from the spec: RSA signing (spec 6/4.2): parse the private
key, build the padded `DigestInfo` encoding, and exponentiate with the
private exponent modulo the modulus. -/
def rsa_sign (priv digestInfo : List Nat) : Option (List Nat) :=
  match rsaParsePrivate priv with
  | none => none
  | some (nBytes, d) =>
    some (natToBytesBE (stripZeros nBytes).length
      (powMod (bytesToNat (emsaPkcs1 (stripZeros nBytes).length digestInfo)) d
        (bytesToNat nBytes)))

/-- Modelled from the spec: RSA signature verification (spec 6/53):
exponentiate the signature with the public exponent and compare the
result against the expected padded `DigestInfo` encoding; a mismatch (or a
wrong-length signature) is reported as failure, not a crash. -/
def rsa_verify (pub digestInfo sig : List Nat) : Option Bool :=
  match rsaParsePublic pub with
  | none => none
  | some (nBytes, e) =>
    some ((sig.length == (stripZeros nBytes).length)
      && (natToBytesBE (stripZeros nBytes).length
            (powMod (bytesToNat sig) e (bytesToNat nBytes))
          == emsaPkcs1 (stripZeros nBytes).length digestInfo))

theorem B_eq : B = 18446744073709551616 := by norm_num [B]

theorem B_pos : 0 < B := by norm_num [B]

theorem Bsq_eq : B ^ 2 = 340282366920938463463374607431768211456 := by norm_num [B]

theorem wordsLt.of_cons {v : Nat} {l : List Nat} (h : wordsLt (v :: l)) :
    wordsLt l :=
  fun w hw => h w (List.mem_cons_of_mem v hw)

theorem wordsLt.head {v : Nat} {l : List Nat} (h : wordsLt (v :: l)) : v < B :=
  h v (List.mem_cons_self v l)

theorem wordsLt.cons {v : Nat} {l : List Nat} (hv : v < B) (h : wordsLt l) :
    wordsLt (v :: l) := by
  intro w hw
  rcases List.mem_cons.mp hw with h1 | h2
  · exact h1 ▸ hv
  · exact h w h2

theorem addWord_fst (x y : Nat) : (addWord x y).1 = (x + y) % B := rfl

theorem addWord_fst_lt (x y : Nat) : (addWord x y).1 < B :=
  Nat.mod_lt _ B_pos

theorem addWord_snd_le (x y : Nat) : (addWord x y).2 ≤ 1 := by
  show (if (x + y) % B < y then 1 else 0) ≤ 1
  split <;> omega

theorem addWord_snd (x y : Nat) (hx : x < B) (hy : y < B) :
    (addWord x y).2 = (x + y) / B := by
  show (if (x + y) % B < y then 1 else 0) = (x + y) / B
  rw [B_eq] at hx hy ⊢
  split <;> omega

theorem addWord_sum (x y : Nat) (hx : x < B) (hy : y < B) :
    (addWord x y).1 + B * (addWord x y).2 = x + y := by
  rw [addWord_fst, addWord_snd x y hx hy]
  exact Nat.mod_add_div (x + y) B

theorem lor_bits (a b : Nat) (ha : a ≤ 1) (hb : b ≤ 1) (hab : a + b ≤ 1) :
    a ||| b = a + b := by
  interval_cases a <;> interval_cases b <;> first | rfl | omega

theorem addPair_1 (t0 t1 lo hi : Nat) :
    (addPair t0 t1 lo hi).1 = (addWord t0 lo).1 := rfl

theorem addPair_21 (t0 t1 lo hi : Nat) :
    (addPair t0 t1 lo hi).2.1 =
      (addWord (addWord t1 hi).1 (addWord t0 lo).2).1 := rfl

theorem addPair_22 (t0 t1 lo hi : Nat) :
    (addPair t0 t1 lo hi).2.2 =
      (addWord (addWord t1 hi).1 (addWord t0 lo).2).2 ||| (addWord t1 hi).2 := rfl

theorem addPair_not_both (t0 t1 lo hi : Nat) (h1 : t1 < B) (hhi : hi < B)
    (hc0 : (addWord t0 lo).2 ≤ 1) :
    (addWord (addWord t1 hi).1 (addWord t0 lo).2).2 + (addWord t1 hi).2 ≤ 1 := by
  have hs1 : (addWord t1 hi).1 < B := addWord_fst_lt t1 hi
  have hc0lt : (addWord t0 lo).2 < B := lt_of_le_of_lt hc0 (by rw [B_eq]; omega)
  have e1 := addWord_snd t1 hi h1 hhi
  have e2 := addWord_snd (addWord t1 hi).1 (addWord t0 lo).2 hs1 hc0lt
  rw [e1, e2, addWord_fst]
  rw [B_eq] at h1 hhi ⊢
  omega

theorem addPair_spec (t0 t1 lo hi : Nat) (h0 : t0 < B) (h1 : t1 < B)
    (hlo : lo < B) (hhi : hi < B) :
    (addPair t0 t1 lo hi).1 + B * (addPair t0 t1 lo hi).2.1
        + B ^ 2 * (addPair t0 t1 lo hi).2.2 = t0 + B * t1 + (lo + B * hi)
      ∧ (addPair t0 t1 lo hi).1 < B
      ∧ (addPair t0 t1 lo hi).2.1 < B
      ∧ (addPair t0 t1 lo hi).2.2 ≤ 1 := by
  have hc0 : (addWord t0 lo).2 ≤ 1 := addWord_snd_le t0 lo
  have hc0lt : (addWord t0 lo).2 < B := lt_of_le_of_lt hc0 (by rw [B_eq]; omega)
  have hs1 : (addWord t1 hi).1 < B := addWord_fst_lt t1 hi
  have hnb := addPair_not_both t0 t1 lo hi h1 hhi hc0
  have hlor := lor_bits _ _
    (addWord_snd_le (addWord t1 hi).1 (addWord t0 lo).2) (addWord_snd_le t1 hi) hnb
  have e1 := addWord_sum t0 lo h0 hlo
  have e2 := addWord_sum t1 hi h1 hhi
  have e3 := addWord_sum (addWord t1 hi).1 (addWord t0 lo).2 hs1 hc0lt
  refine ⟨?_, addWord_fst_lt t0 lo, addWord_fst_lt _ _, ?_⟩
  · rw [addPair_1, addPair_21, addPair_22, hlor, Bsq_eq]
    rw [B_eq] at e1 e2 e3 ⊢
    omega
  · rw [addPair_22, hlor]
    exact hnb

theorem bigintValue_nil : bigintValue [] = 0 := rfl

theorem bigintValue_cons (w : Nat) (ws : List Nat) :
    bigintValue (w :: ws) = w + B * bigintValue ws := rfl

theorem bigintValue_append (l1 l2 : List Nat) :
    bigintValue (l1 ++ l2) = bigintValue l1 + B ^ l1.length * bigintValue l2 := by
  induction l1 with
  | nil => simp [bigintValue]
  | cons w ws ih =>
    simp only [List.cons_append, bigintValue_cons, ih, List.length_cons]
    ring

theorem value_lt (l : List Nat) (h : wordsLt l) :
    bigintValue l < B ^ l.length := by
  induction l with
  | nil => simp [bigintValue]
  | cons w ws ih =>
    have hw : w < B := h.head
    have hv := ih h.of_cons
    rw [bigintValue_cons, List.length_cons, pow_succ]
    calc w + B * bigintValue ws
        ≤ (B - 1) + B * bigintValue ws := by omega
      _ < B * (bigintValue ws + 1) := by
          have := B_pos
          ring_nf
          omega
      _ ≤ B * B ^ ws.length := by
          have h1 : bigintValue ws + 1 ≤ B ^ ws.length := hv
          exact Nat.mul_le_mul_left B h1
      _ = B ^ ws.length * B := Nat.mul_comm _ _

theorem carryLoop_spec (r : List Nat) : ∀ c : Nat, wordsLt r → c ≤ 1 →
    bigintValue r + c < B ^ r.length →
    ∃ s, carryLoop c r = some s ∧ bigintValue s = bigintValue r + c ∧
      s.length = r.length ∧ wordsLt s := by
  induction r with
  | nil =>
    intro c _ hc hlt
    have hc0 : c = 0 := by
      simp [bigintValue] at hlt
      omega
    subst hc0
    exact ⟨[], rfl, by simp [bigintValue], rfl, fun w hw => absurd hw (List.not_mem_nil w)⟩
  | cons v rest ih =>
    intro c hw hc hlt
    by_cases h0 : c = 0
    · subst h0
      exact ⟨v :: rest, by simp [carryLoop], by simp, rfl, hw⟩
    · have hc1 : c = 1 := by omega
      subst hc1
      have hv : v < B := hw.head
      have h1B : (1 : Nat) < B := by rw [B_eq]; omega
      have hsum := addWord_sum v 1 hv h1B
      have hfst : (addWord v 1).1 < B := addWord_fst_lt v 1
      have hsnd : (addWord v 1).2 ≤ 1 := addWord_snd_le v 1
      have hlt2 : bigintValue rest + (addWord v 1).2 < B ^ rest.length := by
        rw [bigintValue_cons, List.length_cons, pow_succ] at hlt
        rw [B_eq] at hsum hlt ⊢
        omega
      obtain ⟨t, ht, htv, htl, htw⟩ := ih (addWord v 1).2 hw.of_cons hsnd hlt2
      refine ⟨(addWord v 1).1 :: t, ?_, ?_, ?_, htw.cons hfst⟩
      · simp [carryLoop, ht]
      · rw [bigintValue_cons, bigintValue_cons, htv]
        rw [B_eq] at hsum ⊢
        omega
      · simp [htl]

theorem mulAddStep_spec (x y : Nat) (s : List Nat) (hx : x < B) (hy : y < B)
    (hw : wordsLt s) (hlen : 2 ≤ s.length)
    (hlt : bigintValue s + x * y < B ^ s.length) :
    ∃ s2, mulAddStep x y s = some s2 ∧
      bigintValue s2 = bigintValue s + x * y ∧
      s2.length = s.length ∧ wordsLt s2 := by
  match s, hw, hlen, hlt with
  | [], _, hlen, _ => simp at hlen
  | [t0], _, hlen, _ => simp at hlen
  | t0 :: t1 :: rest, hw, hlen, hlt =>
    have h0 : t0 < B := hw.head
    have h1 : t1 < B := hw.of_cons.head
    have hwr : wordsLt rest := hw.of_cons.of_cons
    have hxy : x * y < B ^ 2 := by
      rw [pow_two]
      exact Nat.mul_lt_mul_of_lt_of_le hx (Nat.le_of_lt hy) B_pos
    have hdiv : x * y / B < B := by
      rw [Nat.div_lt_iff_lt_mul B_pos, ← pow_two]
      exact hxy
    have hhi_eq : x * y / B % B = x * y / B := Nat.mod_eq_of_lt hdiv
    have hlohi : x * y % B + B * (x * y / B % B) = x * y := by
      rw [hhi_eq]
      exact Nat.mod_add_div (x * y) B
    obtain ⟨hq, hq1, hq21, hq22⟩ := addPair_spec t0 t1 (x * y % B) (x * y / B % B)
      h0 h1 (Nat.mod_lt _ B_pos) (Nat.mod_lt _ B_pos)
    have hlt2 : bigintValue rest + (addPair t0 t1 (x * y % B) (x * y / B % B)).2.2 <
        B ^ rest.length := by
      rw [bigintValue_cons, bigintValue_cons, List.length_cons, List.length_cons,
        pow_succ, pow_succ] at hlt
      rw [Bsq_eq] at hq
      rw [B_eq] at hq hq1 hq21 hlohi hlt ⊢
      omega
    obtain ⟨t, ht, htv, htl, htw⟩ := carryLoop_spec rest _ hwr hq22 hlt2
    refine ⟨_ :: _ :: t, ?_, ?_, ?_, (htw.cons hq21).cons hq1⟩
    · simp [mulAddStep, ht]
    · rw [bigintValue_cons, bigintValue_cons, htv,
        bigintValue_cons, bigintValue_cons]
      rw [Bsq_eq] at hq
      rw [B_eq] at hq hlohi ⊢
      omega
    · simp [htl]

theorem wordsLt_take (l : List Nat) (k : Nat) (h : wordsLt l) :
    wordsLt (l.take k) :=
  fun w hw => h w (List.take_subset k l hw)

theorem wordsLt_drop (l : List Nat) (k : Nat) (h : wordsLt l) :
    wordsLt (l.drop k) :=
  fun w hw => h w (List.drop_subset k l hw)

theorem wordsLt_append {l1 l2 : List Nat} (h1 : wordsLt l1) (h2 : wordsLt l2) :
    wordsLt (l1 ++ l2) := by
  intro w hw
  rcases List.mem_append.mp hw with h | h
  · exact h1 w h
  · exact h2 w h

theorem mulAddAt_spec (x y k : Nat) (r : List Nat) (hx : x < B) (hy : y < B)
    (hw : wordsLt r) (hk : k + 2 ≤ r.length)
    (hlt : bigintValue r + x * y * B ^ k < B ^ r.length) :
    ∃ r2, mulAddAt x y k r = some r2 ∧
      bigintValue r2 = bigintValue r + x * y * B ^ k ∧
      r2.length = r.length ∧ wordsLt r2 := by
  have hlentake : (r.take k).length = k := by
    rw [List.length_take]
    omega
  have hlendrop : (r.drop k).length = r.length - k := List.length_drop k r
  have hvsplit : bigintValue r =
      bigintValue (r.take k) + B ^ k * bigintValue (r.drop k) := by
    conv_lhs => rw [← List.take_append_drop k r]
    rw [bigintValue_append, hlentake]
  have hwd : wordsLt (r.drop k) := wordsLt_drop r k hw
  have hb : bigintValue (r.drop k) + x * y < B ^ (r.drop k).length := by
    have hpow : B ^ r.length = B ^ k * B ^ (r.length - k) := by
      rw [← pow_add]
      congr 1
      omega
    rw [hvsplit, hpow] at hlt
    have h2 : B ^ k * (bigintValue (r.drop k) + x * y) <
        B ^ k * B ^ (r.length - k) := by
      calc B ^ k * (bigintValue (r.drop k) + x * y)
          = B ^ k * bigintValue (r.drop k) + x * y * B ^ k := by ring
        _ ≤ bigintValue (r.take k) + B ^ k * bigintValue (r.drop k)
              + x * y * B ^ k := by omega
        _ < B ^ k * B ^ (r.length - k) := hlt
    rw [hlendrop]
    exact Nat.lt_of_mul_lt_mul_left h2
  obtain ⟨s2, hs2, hv2, hl2, hw2⟩ := mulAddStep_spec x y (r.drop k) hx hy hwd
    (by omega) hb
  refine ⟨r.take k ++ s2, ?_, ?_, ?_, wordsLt_append (wordsLt_take r k hw) hw2⟩
  · simp [mulAddAt, hs2]
  · rw [bigintValue_append, hlentake, hv2, hvsplit]
    ring
  · rw [List.length_append, hlentake, hl2, hlendrop]
    omega

theorem mulLoop2_spec (x : Nat) (b : List Nat) : ∀ (k : Nat) (r : List Nat),
    x < B → wordsLt b → wordsLt r → k + b.length + 1 ≤ r.length →
    bigintValue r + x * bigintValue b * B ^ k < B ^ r.length →
    ∃ r2, mulLoop2 x b k r = some r2 ∧
      bigintValue r2 = bigintValue r + x * bigintValue b * B ^ k ∧
      r2.length = r.length ∧ wordsLt r2 := by
  induction b with
  | nil =>
    intro k r _ _ hwr _ _
    exact ⟨r, rfl, by simp [bigintValue_nil], rfl, hwr⟩
  | cons bj brest ih =>
    intro k r hx hwb hwr hlen hlt
    have hbj : bj < B := hwb.head
    have hbj_le : bj ≤ bigintValue (bj :: brest) := by
      rw [bigintValue_cons]
      exact Nat.le_add_right bj _
    have hstep : bigintValue r + x * bj * B ^ k < B ^ r.length := by
      refine lt_of_le_of_lt (Nat.add_le_add_left ?_ _) hlt
      exact Nat.mul_le_mul_right _ (Nat.mul_le_mul_left x hbj_le)
    obtain ⟨r1, h1, hv1, hl1, hw1⟩ := mulAddAt_spec x bj k r hx hbj hwr
      (by simp [List.length_cons] at hlen; omega) hstep
    have hlen2 : (k + 1) + brest.length + 1 ≤ r1.length := by
      rw [hl1]
      simp [List.length_cons] at hlen
      omega
    have hlt2 : bigintValue r1 + x * bigintValue brest * B ^ (k + 1) <
        B ^ r1.length := by
      rw [hv1, hl1]
      calc bigintValue r + x * bj * B ^ k + x * bigintValue brest * B ^ (k + 1)
          = bigintValue r + x * bigintValue (bj :: brest) * B ^ k := by
            rw [bigintValue_cons]
            ring
        _ < B ^ r.length := hlt
    obtain ⟨r2, h2, hv2, hl2, hw2⟩ := ih (k + 1) r1 hx hwb.of_cons hw1 hlen2 hlt2
    refine ⟨r2, ?_, ?_, by rw [hl2, hl1], hw2⟩
    · simp [mulLoop2, h1, h2]
    · rw [hv2, hv1, bigintValue_cons]
      ring

theorem mulLoop1_spec (b : List Nat) (a : List Nat) : ∀ (i : Nat) (r : List Nat),
    wordsLt a → wordsLt b → wordsLt r → i + a.length + b.length ≤ r.length →
    bigintValue r + bigintValue a * bigintValue b * B ^ i < B ^ r.length →
    ∃ r2, mulLoop1 a b i r = some r2 ∧
      bigintValue r2 = bigintValue r + bigintValue a * bigintValue b * B ^ i ∧
      r2.length = r.length ∧ wordsLt r2 := by
  induction a with
  | nil =>
    intro i r _ _ hwr _ _
    exact ⟨r, rfl, by simp [bigintValue_nil], rfl, hwr⟩
  | cons ai arest ih =>
    intro i r hwa hwb hwr hlen hlt
    have hai : ai < B := hwa.head
    have hai_le : ai ≤ bigintValue (ai :: arest) := by
      rw [bigintValue_cons]
      exact Nat.le_add_right ai _
    have hin : bigintValue r + ai * bigintValue b * B ^ i < B ^ r.length := by
      refine lt_of_le_of_lt (Nat.add_le_add_left ?_ _) hlt
      exact Nat.mul_le_mul_right _ (Nat.mul_le_mul_right _ hai_le)
    obtain ⟨r1, h1, hv1, hl1, hw1⟩ := mulLoop2_spec ai b i r hai hwb hwr
      (by simp [List.length_cons] at hlen; omega) hin
    have hlen2 : (i + 1) + arest.length + b.length ≤ r1.length := by
      rw [hl1]
      simp [List.length_cons] at hlen
      omega
    have hlt2 : bigintValue r1 + bigintValue arest * bigintValue b * B ^ (i + 1) <
        B ^ r1.length := by
      rw [hv1, hl1]
      calc bigintValue r + ai * bigintValue b * B ^ i
            + bigintValue arest * bigintValue b * B ^ (i + 1)
          = bigintValue r + bigintValue (ai :: arest) * bigintValue b * B ^ i := by
            rw [bigintValue_cons]
            ring
        _ < B ^ r.length := hlt
    obtain ⟨r2, h2, hv2, hl2, hw2⟩ := ih (i + 1) r1 hwa.of_cons hwb hw1 hlen2 hlt2
    refine ⟨r2, ?_, ?_, by rw [hl2, hl1], hw2⟩
    · simp [mulLoop1, h1, h2]
    · rw [hv2, hv1, bigintValue_cons]
      ring

theorem map_zero_eq_replicate (l : List Nat) :
    List.map (fun _ => (0 : Nat)) l = List.replicate l.length 0 := by
  induction l with
  | nil => rfl
  | cons w ws ih => simp [List.map, List.replicate, ih]

theorem replicate_value (n : Nat) : bigintValue (List.replicate n 0) = 0 := by
  induction n with
  | zero => rfl
  | succ m ih => simp [List.replicate, bigintValue_cons, ih]

theorem replicate_words (n : Nat) : wordsLt (List.replicate n 0) := by
  intro w hw
  rw [List.eq_of_mem_replicate hw]
  exact B_pos

theorem mul_value_lt (a b : List Nat) (ha : wordsLt a) (hb : wordsLt b) :
    bigintValue a * bigintValue b < B ^ (a.length + b.length) := by
  have hva := value_lt a ha
  have hvb := value_lt b hb
  have hpa : 1 ≤ B ^ a.length := Nat.one_le_pow _ _ B_pos
  have hpb : 1 ≤ B ^ b.length := Nat.one_le_pow _ _ B_pos
  calc bigintValue a * bigintValue b
      ≤ (B ^ a.length - 1) * (B ^ b.length - 1) :=
        Nat.mul_le_mul (by omega) (by omega)
    _ ≤ (B ^ a.length - 1) * B ^ b.length :=
        Nat.mul_le_mul_left _ (by omega)
    _ < B ^ a.length * B ^ b.length :=
        Nat.mul_lt_mul_of_lt_of_le (by omega) le_rfl (by omega)
    _ = B ^ (a.length + b.length) := (pow_add B a.length b.length).symm

/-- Keystone: on valid word lists the kernel succeeds (the carry chain
never runs off the end of the result) and computes the exact product in
exactly `L1 + L2` valid words. -/
theorem bigint_multiply_spec (a b : List Nat) (ha : wordsLt a) (hb : wordsLt b) :
    ∃ r, bigint_multiply_raw a b = some r ∧
      bigintValue r = bigintValue a * bigintValue b ∧
      r.length = a.length + b.length ∧ wordsLt r := by
  have hlen : (List.replicate (a.length + b.length) (0 : Nat)).length =
      a.length + b.length := List.length_replicate _ _
  have hlt : bigintValue (List.replicate (a.length + b.length) (0 : Nat))
      + bigintValue a * bigintValue b * B ^ 0 <
      B ^ (List.replicate (a.length + b.length) (0 : Nat)).length := by
    rw [replicate_value, hlen, pow_zero]
    simpa using mul_value_lt a b ha hb
  obtain ⟨r, hr, hv, hl, hw⟩ := mulLoop1_spec b a 0
    (List.replicate (a.length + b.length) 0) ha hb (replicate_words _)
    (by rw [hlen]; omega) hlt
  refine ⟨r, ?_, ?_, by rw [hl, hlen], hw⟩
  · rw [bigint_multiply_raw, bigint_multiply_into, map_zero_eq_replicate, hlen]
    exact hr
  · rw [hv, replicate_value, pow_zero]
    ring

theorem natToWords_succ (n v : Nat) :
    natToWords (n + 1) v = v % B :: natToWords n (v / B) := rfl

theorem natToWords_value (l : List Nat) (h : wordsLt l) :
    natToWords l.length (bigintValue l) = l := by
  induction l with
  | nil => rfl
  | cons w ws ih =>
    rw [List.length_cons, bigintValue_cons, natToWords_succ]
    have hm : (w + B * bigintValue ws) % B = w := by
      rw [Nat.add_mul_mod_self_left]
      exact Nat.mod_eq_of_lt h.head
    have hd : (w + B * bigintValue ws) / B = bigintValue ws := by
      rw [Nat.add_mul_div_left w _ B_pos, Nat.div_eq_of_lt h.head]
      omega
    rw [hm, hd, ih h.of_cons]

theorem natToWords_succ_of_lt (n : Nat) : ∀ v : Nat, v < B ^ n →
    natToWords (n + 1) v = natToWords n v ++ [0] := by
  induction n with
  | zero =>
    intro v h
    have hv : v = 0 := by
      rw [pow_zero] at h
      omega
    subst hv
    simp [natToWords]
  | succ m ih =>
    intro v h
    have hv : v / B < B ^ m := by
      rw [Nat.div_lt_iff_lt_mul B_pos, ← pow_succ]
      exact h
    rw [natToWords_succ (m + 1) v, ih (v / B) hv, natToWords_succ m v]
    simp

theorem sumRow_eq (x : Nat) (b : List Nat) : ∀ k : Nat,
    sumRow x b k = x * bigintValue b * B ^ k := by
  induction b with
  | nil => intro k; simp [sumRow, bigintValue_nil]
  | cons bj brest ih =>
    intro k
    rw [sumRow, ih (k + 1), bigintValue_cons]
    ring

theorem schoolbookSum_eq (a b : List Nat) : ∀ i : Nat,
    schoolbookSum a b i = bigintValue a * bigintValue b * B ^ i := by
  induction a with
  | nil => intro i; simp [schoolbookSum, bigintValue_nil]
  | cons ai arest ih =>
    intro i
    rw [schoolbookSum, ih (i + 1), sumRow_eq, bigintValue_cons]
    ring

/-- The buffer-level call: any correctly sized result buffer gives the
same successful exact product. -/
theorem bigint_multiply_into_spec (a b r0 : List Nat) (ha : wordsLt a)
    (hb : wordsLt b) (hr0 : r0.length = a.length + b.length) :
    ∃ r, bigint_multiply_into a b r0 = some r ∧
      bigintValue r = bigintValue a * bigintValue b ∧
      r.length = a.length + b.length ∧ wordsLt r := by
  obtain ⟨r, hr, hv, hl, hw⟩ := bigint_multiply_spec a b ha hb
  refine ⟨r, ?_, hv, hl, hw⟩
  rw [bigint_multiply_into, map_zero_eq_replicate, hr0]
  rw [bigint_multiply_raw, bigint_multiply_into, map_zero_eq_replicate,
    List.length_replicate] at hr
  exact hr

theorem mulLoop2_nil (x : Nat) (k : Nat) (r : List Nat) :
    mulLoop2 x [] k r = some r := rfl

theorem mulLoop1_nil_b (a : List Nat) : ∀ (i : Nat) (r : List Nat),
    mulLoop1 a [] i r = some r := by
  induction a with
  | nil => intro i r; rfl
  | cons ai arest ih =>
    intro i r
    rw [mulLoop1, mulLoop2_nil]
    exact ih (i + 1) r

theorem readWords_length (mem : Nat → Nat) (base : Nat) : ∀ n : Nat,
    (readWords mem base n).length = n := by
  intro n
  induction n generalizing base with
  | zero => rfl
  | succ m ih => simp [readWords, ih]

theorem readWords_congr (n : Nat) : ∀ (m1 m2 : Nat → Nat) (base : Nat),
    (∀ i, i < n → m1 (base + i) = m2 (base + i)) →
    readWords m1 base n = readWords m2 base n := by
  induction n with
  | zero => intro m1 m2 base _; rfl
  | succ m ih =>
    intro m1 m2 base h
    rw [readWords, readWords]
    have h0 : m1 base = m2 base := by
      have := h 0 (Nat.succ_pos m)
      simpa using this
    rw [h0, ih m1 m2 (base + 1) (fun i hi => by
      have h1 := h (i + 1) (by omega)
      have h2 : base + 1 + i = base + (i + 1) := by omega
      rw [h2]
      exact h1)]

theorem writeWords_frame (l : List Nat) : ∀ (mem : Nat → Nat) (base addr : Nat),
    addr < base ∨ base + l.length ≤ addr → writeWords mem base l addr = mem addr := by
  induction l with
  | nil => intro mem base addr _; rfl
  | cons w ws ih =>
    intro mem base addr h
    rw [writeWords]
    rw [ih _ (base + 1) addr (by simp [List.length_cons] at h; omega)]
    have hne : addr ≠ base := by
      simp [List.length_cons] at h
      omega
    exact Function.update_noteq hne w mem

/-- Claim C1: for every multiplicand `a` of `L1` words and multiplier `b`
of `L2` words (least-significant word first, value = sum of
`word[i] * 2 ^ (64 * i)`), `bigint_multiply_raw` succeeds and writes
exactly `L1 + L2` words whose value is exactly
`value a * value b` — no truncation, no overflow. -/
theorem bigint_multiply_exact (a b : List Nat) (ha : wordsLt a)
    (hb : wordsLt b) :
    Option.map bigintValue (bigint_multiply_raw a b)
        = some (bigintValue a * bigintValue b)
      ∧ Option.map List.length (bigint_multiply_raw a b)
        = some (a.length + b.length) := by
  obtain ⟨r, hr, hv, hl, _⟩ := bigint_multiply_spec a b ha hb
  rw [hr]
  exact ⟨by simp [hv], by simp [hl]⟩

/-- Witness for C1 at the concrete operands `[3, 4]` and `[5]`. -/
theorem bigint_multiply_exact_witness :
    wordsLt [3, 4] ∧ wordsLt [5] ∧
      (Option.map bigintValue (bigint_multiply_raw [3, 4] [5])
          = some (bigintValue [3, 4] * bigintValue [5])
        ∧ Option.map List.length (bigint_multiply_raw [3, 4] [5])
          = some ([3, 4].length + [5].length)) :=
  ⟨by decide, by decide, bigint_multiply_exact [3, 4] [5] (by decide) (by decide)⟩

/-- Claim C2: for every pair of valid operands — including all words at
the maximum value `2 ^ 64 - 1` — the kernel call succeeds: in this
embedding the unchecked carry-propagation loop returns `none` exactly when
a carry would be written at or beyond word `L1 + L2`, so `isSome` states
that every carry chain dies out with a zero carry inside the
`L1 + L2`-word result. -/
theorem bigint_multiply_carry_in_bounds (a b : List Nat) (ha : wordsLt a)
    (hb : wordsLt b) :
    (bigint_multiply_raw a b).isSome = true := by
  obtain ⟨r, hr, _, _, _⟩ := bigint_multiply_spec a b ha hb
  rw [hr]
  rfl

/-- Witness for C2 at the maximal-carry stress case: both operands two
words of `2 ^ 64 - 1`. -/
theorem bigint_multiply_carry_in_bounds_witness :
    wordsLt [18446744073709551615, 18446744073709551615] ∧
      (bigint_multiply_raw [18446744073709551615, 18446744073709551615]
        [18446744073709551615, 18446744073709551615]).isSome = true :=
  ⟨by decide, bigint_multiply_carry_in_bounds
    [18446744073709551615, 18446744073709551615]
    [18446744073709551615, 18446744073709551615] (by decide) (by decide)⟩

/-- Claim C3: the loong64 assembly kernel is observably equivalent to the
portable reference schoolbook multiply modelled from the spec: zero the
result, accumulate every pair product `word[i] * word[j]` at weight
`B ^ (i + j)`, and represent the total in `L1 + L2` words. -/
theorem bigint_multiply_matches_portable (a b : List Nat) (ha : wordsLt a)
    (hb : wordsLt b) :
    bigint_multiply_raw a b = some (bigint_multiply_portable a b) := by
  obtain ⟨r, hr, hv, hl, hw⟩ := bigint_multiply_spec a b ha hb
  rw [hr]
  congr 1
  have hs : schoolbookSum a b 0 = bigintValue a * bigintValue b := by
    rw [schoolbookSum_eq, pow_zero, Nat.mul_one]
  rw [bigint_multiply_portable, hs, ← hv, ← hl]
  exact (natToWords_value r hw).symm

/-- Witness for C3 at the concrete operands `[7, 9]` and `[11, 13]`. -/
theorem bigint_multiply_matches_portable_witness :
    wordsLt [7, 9] ∧ wordsLt [11, 13] ∧
      bigint_multiply_raw [7, 9] [11, 13]
        = some (bigint_multiply_portable [7, 9] [11, 13]) :=
  ⟨by decide, by decide,
    bigint_multiply_matches_portable [7, 9] [11, 13] (by decide) (by decide)⟩

/-- Claim C4: every word addition in the kernel wraps modulo `2 ^ 64` and
the carry is detected by comparing the wrapped sum against an addend: for
words `x, y`, the wrapped sum is below `y` exactly when the true sum
reaches `2 ^ 64`; hence `addWord`'s flag is the mathematical carry, and
the combined flag of the two-word add of a 128-bit partial product
(`addPair`) is the mathematical carry of the double-word addition. -/
theorem carry_flag_correct (x y t0 t1 : Nat) (hx : x < B) (hy : y < B)
    (h0 : t0 < B) (h1 : t1 < B) :
    ((x + y) % B < y ↔ B ≤ x + y)
      ∧ (addWord x y).1 = (x + y) % B
      ∧ (addWord x y).2 = (x + y) / B
      ∧ (addPair t0 t1 x y).2.2 = (t0 + B * t1 + (x + B * y)) / B ^ 2 := by
  refine ⟨?_, addWord_fst x y, addWord_snd x y hx hy, ?_⟩
  · rw [B_eq] at hx hy ⊢
    omega
  · obtain ⟨hq, hq1, hq21, hq22⟩ := addPair_spec t0 t1 x y h0 h1 hx hy
    rw [Bsq_eq] at hq ⊢
    rw [B_eq] at hq hq1 hq21 h0 h1 hx hy ⊢
    omega

/-- Witness for C4 at the all-maximal words, where every carry fires. -/
theorem carry_flag_correct_witness :
    (18446744073709551615 : Nat) < B ∧
      (((18446744073709551615 + 18446744073709551615) % B
            < (18446744073709551615 : Nat)
          ↔ B ≤ 18446744073709551615 + 18446744073709551615)
        ∧ (addWord 18446744073709551615 18446744073709551615).1
            = (18446744073709551615 + 18446744073709551615) % B
        ∧ (addWord 18446744073709551615 18446744073709551615).2
            = (18446744073709551615 + 18446744073709551615) / B
        ∧ (addPair 18446744073709551615 18446744073709551615
              18446744073709551615 18446744073709551615).2.2
            = (18446744073709551615 + B * 18446744073709551615
                + (18446744073709551615 + B * 18446744073709551615)) / B ^ 2) :=
  ⟨by decide, carry_flag_correct 18446744073709551615 18446744073709551615
    18446744073709551615 18446744073709551615
    (by decide) (by decide) (by decide) (by decide)⟩

/-- Claim C6: multiplication over the word-array representation is
commutative: swapping multiplicand and multiplier produces an identical
result list. -/
theorem bigint_multiply_comm (a b : List Nat) (ha : wordsLt a)
    (hb : wordsLt b) :
    bigint_multiply_raw a b = bigint_multiply_raw b a := by
  obtain ⟨r1, hr1, hv1, hl1, hw1⟩ := bigint_multiply_spec a b ha hb
  obtain ⟨r2, hr2, hv2, hl2, hw2⟩ := bigint_multiply_spec b a hb ha
  rw [hr1, hr2]
  congr 1
  rw [← natToWords_value r1 hw1, ← natToWords_value r2 hw2, hv1, hv2, hl1, hl2,
    Nat.mul_comm, Nat.add_comm]

/-- Witness for C6 at the concrete operands `[2, 3]` and `[4]`. -/
theorem bigint_multiply_comm_witness :
    wordsLt [2, 3] ∧ wordsLt [4] ∧
      bigint_multiply_raw [2, 3] [4] = bigint_multiply_raw [4] [2, 3] :=
  ⟨by decide, by decide, bigint_multiply_comm [2, 3] [4] (by decide) (by decide)⟩

/-- Claim C7: the one-word big integer `1` is a multiplicative identity up
to zero-extension: multiplying `a` by `[1]` yields `a` followed by one
zero word. -/
theorem bigint_multiply_one (a : List Nat) (ha : wordsLt a) :
    bigint_multiply_raw a [1] = some (a ++ [0]) := by
  have h1 : wordsLt [1] := by decide
  obtain ⟨r, hr, hv, hl, hw⟩ := bigint_multiply_spec a [1] ha h1
  rw [hr]
  congr 1
  have hvb : bigintValue [1] = 1 := by
    rw [bigintValue_cons, bigintValue_nil]
    omega
  rw [← natToWords_value r hw, hv, hvb, Nat.mul_one, hl]
  have hlen1 : a.length + [1].length = a.length + 1 := rfl
  rw [hlen1, natToWords_succ_of_lt a.length _ (value_lt a ha),
    natToWords_value a ha]

/-- Witness for C7 at the concrete operand `[5, 6]`. -/
theorem bigint_multiply_one_witness :
    wordsLt [5, 6] ∧ bigint_multiply_raw [5, 6] [1] = some ([5, 6] ++ [0]) :=
  ⟨by decide, bigint_multiply_one [5, 6] (by decide)⟩

/-- Claim C9: with a zero-length multiplicand or multiplier the
accumulation loops run zero iterations and only the initial zeroing takes
effect: the result is `L1 + L2` zero words, representing the value `0`. -/
theorem bigint_multiply_zero_length (a b : List Nat) (h : a = [] ∨ b = []) :
    bigint_multiply_raw a b = some (List.replicate (a.length + b.length) 0) := by
  rcases h with h | h
  · subst h
    rw [bigint_multiply_raw, bigint_multiply_into, map_zero_eq_replicate,
      List.length_replicate]
    rfl
  · subst h
    rw [bigint_multiply_raw, bigint_multiply_into, map_zero_eq_replicate,
      List.length_replicate]
    exact mulLoop1_nil_b a 0 _

/-- Witness for C9 at an empty multiplicand and the multiplier `[7]`. -/
theorem bigint_multiply_zero_length_witness :
    (([] : List Nat) = [] ∨ ([7] : List Nat) = []) ∧
      bigint_multiply_raw [] [7]
        = some (List.replicate (List.length ([] : List Nat) + [7].length) 0) :=
  ⟨Or.inl rfl, bigint_multiply_zero_length [] [7] (Or.inl rfl)⟩

/-- Claim C10: the kernel's output does not depend on the prior contents
of the caller-allocated result buffer, because `memset` zeroes all
`L1 + L2` words before any partial product is accumulated. -/
theorem bigint_multiply_prior_contents_irrelevant (a b r0 r1 : List Nat)
    (h0 : r0.length = a.length + b.length)
    (h1 : r1.length = a.length + b.length) :
    bigint_multiply_into a b r0 = bigint_multiply_into a b r1 := by
  rw [bigint_multiply_into, bigint_multiply_into, map_zero_eq_replicate,
    map_zero_eq_replicate, h0, h1]

/-- Witness for C10: two different prior buffer contents for the same
operands. -/
theorem bigint_multiply_prior_contents_irrelevant_witness :
    ([9, 8] : List Nat).length = ([3] : List Nat).length + ([5] : List Nat).length
      ∧ ([1, 2] : List Nat).length = ([3] : List Nat).length + ([5] : List Nat).length
      ∧ bigint_multiply_into [3] [5] [9, 8] = bigint_multiply_into [3] [5] [1, 2] :=
  ⟨by decide, by decide,
    bigint_multiply_prior_contents_irrelevant [3] [5] [9, 8] [1, 2]
      (by decide) (by decide)⟩

/-- Claim C5 (amended): on a flat memory with non-aliased, correctly sized
buffers the call has no error conditions, mutates nothing outside the
`L1 + L2`-word result region — in particular both operand buffers hold the
same word values after the call as before it.  (The unamended claim also
said the kernel never READS through the operand buffers; the
counterexample `bigint_multiply_mem_reads_operands` refutes that part.) -/
theorem bigint_multiply_mem_frame (pa la pb lb pr addr : Nat)
    (mem : Nat → Nat)
    (hwa : wordsLt (readWords mem pa la)) (hwb : wordsLt (readWords mem pb lb))
    (haddr : addr < pr ∨ pr + (la + lb) ≤ addr)
    (hd1 : pa + la ≤ pr ∨ pr + (la + lb) ≤ pa)
    (hd2 : pb + lb ≤ pr ∨ pr + (la + lb) ≤ pb) :
    (bigint_multiply_mem pa la pb lb pr mem).isSome = true
      ∧ memAt addr (bigint_multiply_mem pa la pb lb pr mem) = some (mem addr)
      ∧ regionAt pa la (bigint_multiply_mem pa la pb lb pr mem)
          = some (readWords mem pa la)
      ∧ regionAt pb lb (bigint_multiply_mem pa la pb lb pr mem)
          = some (readWords mem pb lb) := by
  obtain ⟨r, hr, _, hl, _⟩ := bigint_multiply_into_spec
    (readWords mem pa la) (readWords mem pb lb) (readWords mem pr (la + lb))
    hwa hwb
    (by rw [readWords_length, readWords_length, readWords_length])
  have hrlen : r.length = la + lb := by
    rw [hl, readWords_length, readWords_length]
  have hmem : bigint_multiply_mem pa la pb lb pr mem
      = some (writeWords mem pr r) := by
    rw [bigint_multiply_mem, hr]
    rfl
  have hframe : ∀ q, q < pr ∨ pr + (la + lb) ≤ q →
      writeWords mem pr r q = mem q := by
    intro q hq
    exact writeWords_frame r mem pr q (by rw [hrlen]; omega)
  refine ⟨by rw [hmem]; rfl, ?_, ?_, ?_⟩
  · rw [hmem, memAt]
    simp only [Option.map_some']
    rw [hframe addr haddr]
  · rw [hmem, regionAt]
    simp only [Option.map_some']
    rw [readWords_congr la _ mem pa (fun i hi => hframe (pa + i) (by omega))]
  · rw [hmem, regionAt]
    simp only [Option.map_some']
    rw [readWords_congr lb _ mem pb (fun i hi => hframe (pb + i) (by omega))]

/-- Witness for the amended C5 at a concrete layout `pa = 0, la = 1,
pb = 1, lb = 1, pr = 2` on the memory `memExample`, observing the word at
address `0`. -/
theorem bigint_multiply_mem_frame_witness :
    wordsLt (readWords memExample 0 1) ∧ wordsLt (readWords memExample 1 1) ∧
      ((0 : Nat) < 2 ∨ 2 + (1 + 1) ≤ 0) ∧ ((0 : Nat) + 1 ≤ 2 ∨ 2 + (1 + 1) ≤ 0)
      ∧ ((1 : Nat) + 1 ≤ 2 ∨ 2 + (1 + 1) ≤ 1)
      ∧ ((bigint_multiply_mem 0 1 1 1 2 memExample).isSome = true
        ∧ memAt 0 (bigint_multiply_mem 0 1 1 1 2 memExample)
            = some (memExample 0)
        ∧ regionAt 0 1 (bigint_multiply_mem 0 1 1 1 2 memExample)
            = some (readWords memExample 0 1)
        ∧ regionAt 1 1 (bigint_multiply_mem 0 1 1 1 2 memExample)
            = some (readWords memExample 1 1)) :=
  ⟨by decide, by decide, by decide, by decide, by decide,
    bigint_multiply_mem_frame 0 1 1 1 2 0 memExample (by decide) (by decide)
      (by decide) (by decide) (by decide)⟩

/-- Counterexample to the unamended C5: the claim says the call "never
reads or writes through the multiplicand and multiplier operand buffers".
`memZero` and `memOperandsOne` agree everywhere except inside the operand
buffers of the layout `pa = 0, la = 1, pb = 1, lb = 1, pr = 2`, yet the
two calls leave different words at result address `2` — the kernel's
output depends on (so the kernel reads) the operand buffer contents.  The
code indeed loads `multiplicand->element[i]` and
`multiplier->element[j]`. -/
theorem bigint_multiply_mem_reads_operands :
    memZero 2 = memOperandsOne 2 ∧ memZero 3 = memOperandsOne 3
      ∧ memAt 2 (bigint_multiply_mem 0 1 1 1 2 memZero)
          ≠ memAt 2 (bigint_multiply_mem 0 1 1 1 2 memOperandsOne) := by
  refine ⟨rfl, rfl, ?_⟩
  decide

set_option maxRecDepth 1000000 in
/-- Claim C8: for each of the three fixed RSA signature test vectors (MD5,
SHA-1, SHA-256) of `src/tests/rsa_test.c`, signing the fixed plaintext
with the fixed private key produces exactly the fixed reference signature
bytes, verifying that reference signature with the fixed public key
succeeds, and verifying an all-zero signature of the same 64-byte length
fails. -/
theorem rsa_signature_tests_ok :
    (rsa_sign md5_test_private (digestInfoMD5 (md5 md5_test_plaintext))
        = some md5_test_signature
      ∧ rsa_verify md5_test_public (digestInfoMD5 (md5 md5_test_plaintext))
          md5_test_signature = some true
      ∧ rsa_verify md5_test_public (digestInfoMD5 (md5 md5_test_plaintext))
          (List.replicate 64 0) = some false)
    ∧ (rsa_sign sha1_test_private (digestInfoSHA1 (sha1 sha1_test_plaintext))
        = some sha1_test_signature
      ∧ rsa_verify sha1_test_public (digestInfoSHA1 (sha1 sha1_test_plaintext))
          sha1_test_signature = some true
      ∧ rsa_verify sha1_test_public (digestInfoSHA1 (sha1 sha1_test_plaintext))
          (List.replicate 64 0) = some false)
    ∧ (rsa_sign sha256_test_private (digestInfoSHA256 (sha256 sha256_test_plaintext))
        = some sha256_test_signature
      ∧ rsa_verify sha256_test_public (digestInfoSHA256 (sha256 sha256_test_plaintext))
          sha256_test_signature = some true
      ∧ rsa_verify sha256_test_public (digestInfoSHA256 (sha256 sha256_test_plaintext))
          (List.replicate 64 0) = some false) := by
  refine ⟨⟨?_, ?_, ?_⟩, ⟨?_, ?_, ?_⟩, ?_, ?_, ?_⟩ <;> decide
